import Mathlib

/-!
Verification development for the multi-tenant ARCA/AFIP invoicing client
library (`arca_invoice_lib`).

The Go source is shallowly embedded: pure functions become Lean functions,
the concurrent caches become explicit state passing over association lists
(`List (String × α)`) that model Go `map[string]*V` values, and `time.Time`
and `time.Duration` values become `Int` nanosecond counts (Go durations are
integral nanosecond counts, and the comparisons `Before`/`After` are strict
orders on those counts).  Operations that perform network or cryptographic
I/O take the outcome of that I/O as an explicit parameter.

Go maps have an unspecified iteration order; wherever the source iterates
over a map (eviction scans, cleanup scans) the order of the association
list models one possible iteration order, and theorems either hold for all
orders or exhibit a particular order.
-/

namespace Arca

/-! ## Association-list model of Go string-keyed maps -/

/-- Lookup in a Go map: `v, ok := m[k]`. -/
def alookup {α : Type} (l : List (String × α)) (k : String) : Option α :=
  match l with
  | [] => none
  | (k1, v) :: t => if k1 = k then some v else alookup t k

/-- Deletion from a Go map: `delete(m, k)` removes the binding of `k`. -/
def adelete {α : Type} (l : List (String × α)) (k : String) :
    List (String × α) :=
  match l with
  | [] => []
  | (k1, v) :: t => if k1 = k then adelete t k else (k1, v) :: adelete t k

/-- Assignment `m[k] = v` into a Go map: any previous binding of `k` is
replaced.  The position of the new binding in the list is irrelevant since
list order only models the (unspecified) map iteration order. -/
def ainsert {α : Type} (l : List (String × α)) (k : String) (v : α) :
    List (String × α) :=
  adelete l k ++ [(k, v)]

/-- In-place update of the value stored under a key, modelling a mutation
through the pointer held in the map (`cached.lastUsed = time.Now()`). -/
def aupdate {α : Type} (l : List (String × α)) (k : String) (v : α) :
    List (String × α) :=
  l.map (fun p => if p.1 = k then (k, v) else p)

/-- The keys of the map, in iteration order. -/
def akeys {α : Type} (l : List (String × α)) : List String :=
  l.map Prod.fst

theorem alookup_adelete {α : Type} (l : List (String × α)) (k : String) :
    alookup (adelete l k) k = none := by
  induction l with
  | nil => rfl
  | cons p t ih =>
    by_cases h : p.1 = k
    · simpa [adelete, h] using ih
    · simpa [adelete, h, alookup] using ih

theorem alookup_adelete_ne {α : Type} (l : List (String × α)) (k k1 : String)
    (h : k1 ≠ k) : alookup (adelete l k) k1 = alookup l k1 := by
  have hk : ¬k = k1 := fun he => h he.symm
  induction l with
  | nil => rfl
  | cons p t ih =>
    by_cases hp : p.1 = k
    · simpa [adelete, hp, alookup, hk] using ih
    · by_cases hk1 : p.1 = k1
      · simp [adelete, hp, alookup, hk1, h]
      · simpa [adelete, hp, alookup, hk1] using ih

theorem adelete_length_le {α : Type} (l : List (String × α)) (k : String) :
    (adelete l k).length ≤ l.length := by
  induction l with
  | nil => simp [adelete]
  | cons p t ih =>
    by_cases h : p.1 = k
    · simp [adelete, h]; omega
    · simp [adelete, h]; omega

theorem adelete_length_lt {α : Type} (l : List (String × α)) (k : String)
    (h : alookup l k ≠ none) : (adelete l k).length < l.length := by
  induction l with
  | nil => simp [alookup] at h
  | cons p t ih =>
    by_cases hp : p.1 = k
    · have := adelete_length_le t k
      simp [adelete, hp]
      omega
    · have h2 : alookup t k ≠ none := by simpa [alookup, hp] using h
      have := ih h2
      simp [adelete, hp]
      omega

theorem alookup_isSome_of_mem {α : Type} (l : List (String × α)) (k : String)
    (v : α) (h : (k, v) ∈ l) : alookup l k ≠ none := by
  induction l with
  | nil => simp at h
  | cons p t ih =>
    rcases List.mem_cons.mp h with h1 | h1
    · simp [alookup, ← h1]
    · by_cases hp : p.1 = k
      · simp [alookup, hp]
      · simpa [alookup, hp] using ih h1

theorem mem_adelete {α : Type} (l : List (String × α)) (k : String)
    (p : String × α) (h : p ∈ adelete l k) : p ∈ l := by
  induction l with
  | nil => simp [adelete] at h
  | cons q t ih =>
    by_cases hq : q.1 = k
    · simp [adelete, hq] at h
      exact List.mem_cons_of_mem q (ih h)
    · simp [adelete, hq] at h
      rcases h with h | h
      · simp [h]
      · exact List.mem_cons_of_mem q (ih h)

theorem not_mem_akeys_adelete {α : Type} (l : List (String × α)) (k : String) :
    k ∉ akeys (adelete l k) := by
  induction l with
  | nil => simp [adelete, akeys]
  | cons p t ih =>
    by_cases hp : p.1 = k
    · simpa [adelete, hp, akeys] using ih
    · simp [adelete, hp, akeys] at ih ⊢
      exact ⟨fun he => hp he.symm, ih⟩

theorem akeys_nodup_adelete {α : Type} (l : List (String × α)) (k : String)
    (h : (akeys l).Nodup) : (akeys (adelete l k)).Nodup := by
  induction l with
  | nil => simp [adelete, akeys]
  | cons p t ih =>
    simp [akeys] at h
    by_cases hp : p.1 = k
    · simpa [adelete, hp, akeys] using ih h.2
    · simp [adelete, hp, akeys] at ih ⊢
      refine ⟨fun b hb => ?_, ih h.2⟩
      exact h.1 b (mem_adelete t k (p.1, b) hb)

theorem akeys_ainsert {α : Type} (l : List (String × α)) (k : String) (v : α) :
    akeys (ainsert l k v) = akeys (adelete l k) ++ [k] := by
  simp [ainsert, akeys]

theorem akeys_nodup_ainsert {α : Type} (l : List (String × α)) (k : String)
    (v : α) (h : (akeys l).Nodup) : (akeys (ainsert l k v)).Nodup := by
  rw [akeys_ainsert]
  have h1 := akeys_nodup_adelete l k h
  have h2 := not_mem_akeys_adelete l k
  simp [List.nodup_append, h1]
  intro h3
  exact h2 h3

theorem alookup_ainsert {α : Type} (l : List (String × α)) (k : String)
    (v : α) : alookup (ainsert l k v) k = some v := by
  have step : ∀ t : List (String × α), alookup t k = none →
      alookup (t ++ [(k, v)]) k = some v := by
    intro t
    induction t with
    | nil => intro _; simp [alookup]
    | cons p r ih =>
      intro h
      by_cases hp : p.1 = k
      · simp [alookup, hp] at h
      · simp [alookup, hp] at h ⊢
        exact ih h
  exact step _ (alookup_adelete l k)

theorem alookup_ainsert_ne {α : Type} (l : List (String × α)) (k k1 : String)
    (v : α) (h : k1 ≠ k) : alookup (ainsert l k v) k1 = alookup l k1 := by
  have step : ∀ t : List (String × α),
      alookup (t ++ [(k, v)]) k1 = alookup t k1 := by
    intro t
    have hk : ¬k = k1 := fun he => h he.symm
    induction t with
    | nil => simp [alookup, hk]
    | cons p r ih =>
      by_cases hp : p.1 = k1
      · simp [alookup, hp]
      · simp [alookup, hp, ih]
  rw [ainsert, step, alookup_adelete_ne l k k1 h]

theorem ainsert_length {α : Type} (l : List (String × α)) (k : String)
    (v : α) : (ainsert l k v).length = (adelete l k).length + 1 := by
  simp [ainsert]

/-! ## CUIT validation (`utils.ValidateCUIT`, `utils.validateCUITCheckDigit`)

The fiscal identifier validator from the `utils` package.  `ValidationError`
models `models.ValidationError` restricted to the two fields the claims
mention (the `Value interface{}` slot is dropped). -/

/-- Model of `models.ValidationError` with its field name and message. -/
structure ValidationError where
  field : String
  message : String
deriving DecidableEq, Repr

/-- ASCII decimal digit test, matching the `\d` character class of Go's
`regexp` on ASCII input. -/
def isDigit (c : Char) : Bool := 48 ≤ c.toNat && c.toNat ≤ 57

/-- Value of a digit character, modelling Go's
`digit, _ := strconv.Atoi(string(cuit[i]))` which swallows the error and
leaves `digit` zero on non-digit input. -/
def digitVal (c : Char) : Nat := if isDigit c then c.toNat - 48 else 0

/-- The anchored regular expression `^\d{2}-\d{8}-\d$` from `ValidateCUIT`,
expanded positionally: exactly 13 characters, digits everywhere except
hyphens at positions 2 and 11. -/
def matchesCUITFormat (s : String) : Bool :=
  match s.data with
  | [d1, d2, h1, d3, d4, d5, d6, d7, d8, d9, d10, h2, d11] =>
    isDigit d1 && isDigit d2 && (h1 == '-') && isDigit d3 && isDigit d4 &&
    isDigit d5 && isDigit d6 && isDigit d7 && isDigit d8 && isDigit d9 &&
    isDigit d10 && (h2 == '-') && isDigit d11
  | _ => false

/-- The weights used by `validateCUITCheckDigit`
(`factors := []int{5, 4, 3, 2, 7, 6, 5, 4, 3, 2}`). -/
def cuitFactors : List Nat := [5, 4, 3, 2, 7, 6, 5, 4, 3, 2]

/-- Model of `utils.validateCUITCheckDigit`: strip hyphens, require 11
characters, compute the weighted sum of the first ten digits, derive the
expected check digit from the remainder mod 11 (with the special prefixes
for remainder 1), and compare with the final digit. -/
def validateCUITCheckDigit (cuit : String) : Bool :=
  let stripped := cuit.data.filter (fun c => c != '-')
  if stripped.length = 11 then
    let sum := (List.zipWith (fun c f => digitVal c * f) (stripped.take 10)
      cuitFactors).sum
    let remainder := sum % 11
    let expectedDigit : Nat :=
      if remainder = 0 then 0
      else if remainder = 1 then
        let firstTwo := String.mk (stripped.take 2)
        if firstTwo = "20" ∨ firstTwo = "23" ∨ firstTwo = "24" ∨
           firstTwo = "27" ∨ firstTwo = "30" ∨ firstTwo = "33" ∨
           firstTwo = "34" then 9
        else 0
      else 11 - remainder
    digitVal (stripped.getD 10 ' ') == expectedDigit
  else false

/-- Model of `utils.ValidateCUIT`: empty check, format check, check-digit
check, in the source's order and with the source's error messages. -/
def ValidateCUIT (cuit : String) : Option ValidationError :=
  if cuit = "" then some ⟨"cuit", "CUIT no puede estar vacío"⟩
  else if !matchesCUITFormat cuit then
    some ⟨"cuit", "CUIT debe tener formato XX-XXXXXXXX-X"⟩
  else if !validateCUITCheckDigit cuit then
    some ⟨"cuit", "CUIT inválido - dígito verificador incorrecto"⟩
  else none

/-- Check digit as the specification words it: mod-11 remainder of the
weighted sum of the ten digit values; remainder 0 gives 0, remainder 1
gives 9 for the special two-digit prefixes and 0 otherwise, any other
remainder gives 11 minus the remainder. -/
def specCheckDigit (ds : List Nat) (headPair : Nat) : Nat :=
  let r := (List.zipWith (fun d f => d * f) ds cuitFactors).sum % 11
  if r = 0 then 0
  else if r = 1 then
    if headPair ∈ ([20, 23, 24, 27, 30, 33, 34] : List Nat) then 9 else 0
  else 11 - r

/-- The claim's characterisation of a valid CUIT, written from the
specification's words: the string matches `^\d{2}-\d{8}-\d$` and its last
digit equals the mod-11 check digit over the ten preceding digits. -/
def cuitSpecValid (s : String) : Bool :=
  match s.data with
  | [d1, d2, h1, d3, d4, d5, d6, d7, d8, d9, d10, h2, d11] =>
    isDigit d1 && isDigit d2 && (h1 == '-') && isDigit d3 && isDigit d4 &&
    isDigit d5 && isDigit d6 && isDigit d7 && isDigit d8 && isDigit d9 &&
    isDigit d10 && (h2 == '-') && isDigit d11 &&
    (digitVal d11 == specCheckDigit
      [digitVal d1, digitVal d2, digitVal d3, digitVal d4, digitVal d5,
       digitVal d6, digitVal d7, digitVal d8, digitVal d9, digitVal d10]
      (10 * digitVal d1 + digitVal d2))
  | _ => false

theorem isDigit_ne_hyphen (c : Char) (h : isDigit c = true) : ¬(c = '-') := by
  intro he
  rw [he] at h
  exact absurd h (by decide)

theorem digitVal_le (c : Char) : digitVal c ≤ 9 := by
  unfold digitVal
  by_cases h : isDigit c = true
  · simp [h]
    simp [isDigit] at h
    omega
  · simp [h]

theorem toNat_of_isDigit (c : Char) (h : isDigit c = true) :
    c.toNat = 48 + digitVal c := by
  simp [digitVal, h]
  simp [isDigit] at h
  omega

theorem char_eq_of_toNat_eq (c d : Char) (h : c.toNat = d.toNat) : c = d := by
  have h2 : c.val = d.val := by
    unfold Char.toNat at h
    exact UInt32.toNat.inj h
  exact Char.eq_of_val_eq h2

theorem digit_char_eq_iff (c d : Char) (hc : isDigit c = true)
    (hd : isDigit d = true) : c = d ↔ digitVal c = digitVal d := by
  constructor
  · intro h; rw [h]
  · intro h
    apply char_eq_of_toNat_eq
    rw [toNat_of_isDigit c hc, toNat_of_isDigit d hd, h]

theorem mk_pair_eq_iff (a b x y : Char) :
    String.mk [a, b] = String.mk [x, y] ↔ a = x ∧ b = y := by
  constructor
  · intro h
    have := congrArg String.data h
    simpa using this
  · rintro ⟨h1, h2⟩
    rw [h1, h2]

theorem headPair_iff (a b : Char) (ha : isDigit a = true)
    (hb : isDigit b = true) :
    (String.mk [a, b] = "20" ∨ String.mk [a, b] = "23" ∨
     String.mk [a, b] = "24" ∨ String.mk [a, b] = "27" ∨
     String.mk [a, b] = "30" ∨ String.mk [a, b] = "33" ∨
     String.mk [a, b] = "34") ↔
    (10 * digitVal a + digitVal b) ∈ ([20, 23, 24, 27, 30, 33, 34] : List Nat) := by
  have e20 : String.mk [a, b] = "20" ↔ digitVal a = 2 ∧ digitVal b = 0 := by
    rw [show ("20" : String) = String.mk ['2', '0'] from rfl, mk_pair_eq_iff]
    exact and_congr (digit_char_eq_iff a '2' ha (by decide))
      (digit_char_eq_iff b '0' hb (by decide))
  have e23 : String.mk [a, b] = "23" ↔ digitVal a = 2 ∧ digitVal b = 3 := by
    rw [show ("23" : String) = String.mk ['2', '3'] from rfl, mk_pair_eq_iff]
    exact and_congr (digit_char_eq_iff a '2' ha (by decide))
      (digit_char_eq_iff b '3' hb (by decide))
  have e24 : String.mk [a, b] = "24" ↔ digitVal a = 2 ∧ digitVal b = 4 := by
    rw [show ("24" : String) = String.mk ['2', '4'] from rfl, mk_pair_eq_iff]
    exact and_congr (digit_char_eq_iff a '2' ha (by decide))
      (digit_char_eq_iff b '4' hb (by decide))
  have e27 : String.mk [a, b] = "27" ↔ digitVal a = 2 ∧ digitVal b = 7 := by
    rw [show ("27" : String) = String.mk ['2', '7'] from rfl, mk_pair_eq_iff]
    exact and_congr (digit_char_eq_iff a '2' ha (by decide))
      (digit_char_eq_iff b '7' hb (by decide))
  have e30 : String.mk [a, b] = "30" ↔ digitVal a = 3 ∧ digitVal b = 0 := by
    rw [show ("30" : String) = String.mk ['3', '0'] from rfl, mk_pair_eq_iff]
    exact and_congr (digit_char_eq_iff a '3' ha (by decide))
      (digit_char_eq_iff b '0' hb (by decide))
  have e33 : String.mk [a, b] = "33" ↔ digitVal a = 3 ∧ digitVal b = 3 := by
    rw [show ("33" : String) = String.mk ['3', '3'] from rfl, mk_pair_eq_iff]
    exact and_congr (digit_char_eq_iff a '3' ha (by decide))
      (digit_char_eq_iff b '3' hb (by decide))
  have e34 : String.mk [a, b] = "34" ↔ digitVal a = 3 ∧ digitVal b = 4 := by
    rw [show ("34" : String) = String.mk ['3', '4'] from rfl, mk_pair_eq_iff]
    exact and_congr (digit_char_eq_iff a '3' ha (by decide))
      (digit_char_eq_iff b '4' hb (by decide))
  rw [e20, e23, e24, e27, e30, e33, e34]
  have ha9 := digitVal_le a
  have hb9 := digitVal_le b
  simp only [List.mem_cons, List.not_mem_nil, or_false]
  omega

theorem check13_iff (d1 d2 d3 d4 d5 d6 d7 d8 d9 d10 d11 : Char)
    (g1 : isDigit d1 = true) (g2 : isDigit d2 = true)
    (g3 : isDigit d3 = true) (g4 : isDigit d4 = true)
    (g5 : isDigit d5 = true) (g6 : isDigit d6 = true)
    (g7 : isDigit d7 = true) (g8 : isDigit d8 = true)
    (g9 : isDigit d9 = true) (g10 : isDigit d10 = true)
    (g11 : isDigit d11 = true) :
    validateCUITCheckDigit
      (String.mk [d1, d2, '-', d3, d4, d5, d6, d7, d8, d9, d10, '-', d11]) =
      true ↔
    digitVal d11 = specCheckDigit
      [digitVal d1, digitVal d2, digitVal d3, digitVal d4, digitVal d5,
       digitVal d6, digitVal d7, digitVal d8, digitVal d9, digitVal d10]
      (10 * digitVal d1 + digitVal d2) := by
  have n1 : (d1 != '-') = true := by simpa using isDigit_ne_hyphen d1 g1
  have n2 : (d2 != '-') = true := by simpa using isDigit_ne_hyphen d2 g2
  have n3 : (d3 != '-') = true := by simpa using isDigit_ne_hyphen d3 g3
  have n4 : (d4 != '-') = true := by simpa using isDigit_ne_hyphen d4 g4
  have n5 : (d5 != '-') = true := by simpa using isDigit_ne_hyphen d5 g5
  have n6 : (d6 != '-') = true := by simpa using isDigit_ne_hyphen d6 g6
  have n7 : (d7 != '-') = true := by simpa using isDigit_ne_hyphen d7 g7
  have n8 : (d8 != '-') = true := by simpa using isDigit_ne_hyphen d8 g8
  have n9 : (d9 != '-') = true := by simpa using isDigit_ne_hyphen d9 g9
  have n10 : (d10 != '-') = true := by simpa using isDigit_ne_hyphen d10 g10
  have n11 : (d11 != '-') = true := by simpa using isDigit_ne_hyphen d11 g11
  unfold validateCUITCheckDigit specCheckDigit
  simp only [List.filter, n1, n2, n3, n4, n5, n6, n7, n8, n9, n10, n11,
    show (('-' : Char) != '-') = false by decide]
  simp only [List.length_cons, List.length_nil, List.take, List.getD,
    List.zipWith, List.sum_cons, List.sum_nil, cuitFactors, beq_iff_eq]
  norm_num
  have hiff := headPair_iff d1 d2 g1 g2
  simp only [List.mem_cons, List.not_mem_nil, or_false] at hiff
  simp only [hiff]

theorem validateCUIT_none_iff (s : String) (hs : ¬s = "") :
    ValidateCUIT s = none ↔
    (matchesCUITFormat s = true ∧ validateCUITCheckDigit s = true) := by
  unfold ValidateCUIT
  rw [if_neg hs]
  by_cases hB : matchesCUITFormat s = true
  · by_cases hC : validateCUITCheckDigit s = true
    · simp [hB, hC]
    · simp [hB, hC]
  · simp [hB]

theorem mk_eq_empty (l : List Char) : (String.mk l = "") ↔ l = [] := by
  constructor
  · intro h
    have := congrArg String.data h
    simpa using this
  · intro h
    rw [h]

theorem validateCUIT_matches_spec (s : String) :
    ValidateCUIT s = none ↔ cuitSpecValid s = true := by
  cases s with
  | mk l =>
  rcases l with _ | ⟨c1, _ | ⟨c2, _ | ⟨c3, _ | ⟨c4, _ | ⟨c5, _ | ⟨c6, _ |
    ⟨c7, _ | ⟨c8, _ | ⟨c9, _ | ⟨c10, _ | ⟨c11, _ | ⟨c12, _ | ⟨c13,
    _ | ⟨c14, rest⟩⟩⟩⟩⟩⟩⟩⟩⟩⟩⟩⟩⟩⟩
  all_goals try (simp [ValidateCUIT, matchesCUITFormat, cuitSpecValid,
    mk_eq_empty]; done)
  have hne : ¬String.mk [c1, c2, c3, c4, c5, c6, c7, c8, c9, c10, c11,
      c12, c13] = "" := by
    simp [mk_eq_empty]
  rw [validateCUIT_none_iff _ hne]
  by_cases hB : matchesCUITFormat (String.mk [c1, c2, c3, c4, c5, c6, c7,
      c8, c9, c10, c11, c12, c13]) = true
  · have hB2 := hB
    simp only [matchesCUITFormat, Bool.and_eq_true, beq_iff_eq,
      and_assoc] at hB2
    obtain ⟨g1, g2, hh1, g3, g4, g5, g6, g7, g8, g9, g10, hh2, g11⟩ := hB2
    subst hh1
    subst hh2
    rw [check13_iff c1 c2 c4 c5 c6 c7 c8 c9 c10 c11 c13 g1 g2 g3 g4 g5 g6
      g7 g8 g9 g10 g11]
    simp [cuitSpecValid, hB, g1, g2, g3, g4, g5, g6, g7, g8, g9, g10, g11]
  · constructor
    · rintro ⟨hf, _⟩
      exact absurd hf hB
    · intro hsp
      exfalso
      apply hB
      revert hsp
      simp only [cuitSpecValid, matchesCUITFormat, Bool.and_eq_true,
        beq_iff_eq, and_assoc]
      tauto

/-! ## Ticket cache and token acquisition (`auth.wsaaService`)

`wsaaService.getFromCache` / `GetToken` from
`internal/services/auth/wsaa.go`; the same code is duplicated verbatim as
`WSAAAuth.getFromCache` / `GetAccessTicket` in `pkg/client/auth.go` (with
`AccessToken` spelled `AccessTicket`), so one embedding covers both.  The
cryptographic exchange performed by `generateAccessToken` on a cache miss
(certificate parse, signing, SOAP call, response parse) is abstracted as an
`Except`-valued parameter carrying the `(token, sign)` pair of the parsed
response or the error of whichever step failed. -/

/-- Model of `interfaces.AccessToken` (and of `client.AccessTicket`); times
are nanosecond counts. -/
structure AccessToken where
  token : String
  sign : String
  generationTime : Int
  expirationTime : Int
deriving DecidableEq, Repr

/-- Nanoseconds in one second (`time.Second`). -/
def nsPerSecond : Int := 1000000000

/-- Nanoseconds in one minute (`time.Minute`). -/
def nsPerMinute : Int := 60 * nsPerSecond

/-- Nanoseconds in one hour (`time.Hour`). -/
def nsPerHour : Int := 60 * nsPerMinute

/-- Model of `wsaaService.getFromCache`: a hit is returned only while
`time.Now().Add(5*time.Minute).Before(token.ExpirationTime)`; otherwise
the entry is deleted and the probe reports a miss.  The second component
is the cache after the call. -/
def getFromCache (now : Int) (cache : List (String × AccessToken))
    (service : String) : Option AccessToken × List (String × AccessToken) :=
  match alookup cache service with
  | none => (none, cache)
  | some token =>
    if now + 5 * nsPerMinute < token.expirationTime then (some token, cache)
    else (none, adelete cache service)

/-- Model of `wsaaService.generateAccessToken`: on success of the signed
exchange a token with `generation = now` and `expiration = now + 24h` is
built and inserted under the service key. -/
def generateAccessToken (now : Int) (cache : List (String × AccessToken))
    (service : String) (exchange : Except String (String × String)) :
    Except String AccessToken × List (String × AccessToken) :=
  match exchange with
  | .error e => (.error e, cache)
  | .ok (tok, sgn) =>
    let token : AccessToken := ⟨tok, sgn, now, now + 24 * nsPerHour⟩
    (.ok token, ainsert cache service token)

/-- Model of `wsaaService.GetToken`: probe the cache, else generate. -/
def GetToken (now : Int) (cache : List (String × AccessToken))
    (service : String) (exchange : Except String (String × String)) :
    Except String AccessToken × List (String × AccessToken) :=
  match getFromCache now cache service with
  | (some token, cache2) => (.ok token, cache2)
  | (none, cache2) => generateAccessToken now cache2 service exchange

/-! ## Environment base URLs (`arcaClient.getBaseURL` and friends)

The switch on the environment tag appears three times in the source with
identical bodies (`internal/client/afip_client.go`,
`internal/services/auth/wsaa.go`, and `Config.GetBaseURL`); one embedding
covers all of them. -/

/-- Model of `getBaseURL`: the `default` arm of the switch falls back to
the testing URL. -/
def getBaseURL (environment : String) : String :=
  if environment = "testing" then "https://wswhomo.afip.gov.ar"
  else if environment = "production" then "https://servicios1.afip.gov.ar"
  else "https://wswhomo.afip.gov.ar"

/-- Model of `getWSAAURL`. -/
def getWSAAURL (environment : String) : String :=
  getBaseURL environment ++ "/ws/services/LoginCms"

/-- Model of `getWSFEURL`. -/
def getWSFEURL (environment : String) : String :=
  getBaseURL environment ++ "/wsfev1/service.asmx"

/-- Model of `getWSFEXURL`. -/
def getWSFEXURL (environment : String) : String :=
  getBaseURL environment ++ "/wsfexv1/service.asmx"

/-! ## Per-tenant client (`client.arcaClient`, internal/client/afip_client.go)

`companyConfig` is modelled by its three accessor results; the two business
services and the auth service are identified by opaque numbers (their
construction is outside the claims); the auth service state is its ticket
cache, which `Close` clears via `authService.ClearCache()`.  Each operation
that can close clients or report errors returns those effects explicitly;
`Option String` models Go's `error` result (`none` = `nil`). -/

/-- Model of `interfaces.CompanyInfo`. -/
structure CompanyInfo where
  companyID : String
  cuit : String
  environment : String
deriving DecidableEq, Repr

/-- Model of `client.arcaClient`. -/
structure ArcaClient where
  companyID : String
  cuit : String
  environment : String
  wsfeServiceId : Nat
  wsfexServiceId : Nat
  authCache : List (String × AccessToken)
  closed : Bool
deriving DecidableEq, Repr

/-- Model of `arcaClient.WSFE`: returns the service handle with no check of
the closed flag and no error path. -/
def arcaWSFE (c : ArcaClient) : Nat := c.wsfeServiceId

/-- Model of `arcaClient.WSFEX`: returns the service handle with no check
of the closed flag and no error path. -/
def arcaWSFEX (c : ArcaClient) : Nat := c.wsfexServiceId

/-- Model of `arcaClient.GetCompanyInfo`: reads the company configuration
with no check of the closed flag. -/
def arcaGetCompanyInfo (c : ArcaClient) : CompanyInfo :=
  ⟨c.companyID, c.cuit, c.environment⟩

/-- Model of `arcaClient.IsHealthy`: fails when closed, otherwise probes
`GetToken(ctx, "wsfe")` and wraps its error. -/
def arcaIsHealthy (c : ArcaClient) (now : Int)
    (exchange : Except String (String × String)) : Option String :=
  if c.closed then some "client is closed"
  else
    match (GetToken now c.authCache "wsfe" exchange).1 with
    | .error e => some ("health check failed: " ++ e)
    | .ok _ => none

/-- Model of `arcaClient.Close`: a no-op returning `nil` when already
closed; otherwise sets the flag, clears the auth cache, and returns `nil`.
The result pair is (returned error, client afterwards). -/
def arcaClose (c : ArcaClient) : Option String × ArcaClient :=
  if c.closed then (none, c)
  else (none, { c with closed := true, authCache := [] })

/-! ## CMS construction (`wsaaService.createCMS` / `WSAAAuth.createCMS`)

The function computes an RSA-SHA1 signature over the login XML and then
DISCARDS it (`_, err := rsa.SignPKCS1v15(...)`); what it base64-encodes is
the XML wrapped in a textual `cm:loginTicketRequest` element, not a DER
PKCS#7 object.  The signing outcome is the `signResult` parameter; the
login XML bytes are ASCII, so `[]byte(s)` is the character-code list. -/

/-- Byte view of an ASCII Go string (`[]byte(s)`). -/
def strBytes (s : String) : List Nat := s.data.map Char.toNat

/-- The standard base64 alphabet used by `base64.StdEncoding`. -/
def base64Alphabet : List Char :=
  "ABCDEFGHIJKLMNOPQRSTUVWXYZabcdefghijklmnopqrstuvwxyz0123456789+/".data

/-- Character of the standard base64 alphabet at a 6-bit index. -/
def base64Char (n : Nat) : Char := base64Alphabet.getD n '?'

/-- RFC 4648 standard base64 of a byte list, with padding, modelling
`base64.StdEncoding.EncodeToString`. -/
def base64Encode : List Nat → List Char
  | [] => []
  | [b1] => [base64Char (b1 / 4), base64Char (b1 % 4 * 16), '=', '=']
  | [b1, b2] =>
    [base64Char (b1 / 4), base64Char (b1 % 4 * 16 + b2 / 16),
     base64Char (b2 % 16 * 4), '=']
  | b1 :: b2 :: b3 :: rest =>
    base64Char (b1 / 4) :: base64Char (b1 % 4 * 16 + b2 / 16) ::
    base64Char (b2 % 16 * 4 + b3 / 64) :: base64Char (b3 % 64) ::
    base64Encode rest

/-- The textual wrapper `createCMS` builds around the login XML with
`fmt.Sprintf` before base64-encoding it. -/
def wrapCMS (data : String) : String :=
  "<cm:loginTicketRequest xmlns:cm=\"http://wsaa.view.sua.dvadac.desein.afip.gov\">\n"
    ++ data ++ "\n</cm:loginTicketRequest>"

/-- Model of `createCMS`: fail if signing failed, otherwise base64 the
textual wrapper.  The computed signature bytes in `signResult` are unused
by the success path, exactly as in the source. -/
def createCMS (data : String) (signResult : Except String (List Nat)) :
    Except String String :=
  match signResult with
  | .error e => .error e
  | .ok _ => .ok (String.mk (base64Encode (strBytes (wrapCMS data))))

/-! ## Client manager (`client.clientManager`, README source listing)

`cachedClient` keeps the client identity as an opaque number plus the
book-keeping stamps.  Each mutating operation returns the cache afterwards
together with the list of client identities on which `Close()` was invoked
during the call, in call order. -/

/-- Model of `client.cachedClient`. -/
structure CachedClient where
  clientId : Nat
  lastUsed : Int
  companyID : String
  createdAt : Int
deriving DecidableEq, Repr

/-- Model of `interfaces.CompanyConfig` by its accessor results. -/
structure CompanyConfig where
  companyID : String
  cuit : String
  certificate : List Nat
  privateKey : List Nat
  environment : String
deriving DecidableEq, Repr

/-- Model of `errors.CompanyConfigError` (company, field, message). -/
structure CompanyConfigError where
  companyID : String
  field : String
  message : String
deriving DecidableEq, Repr

/-- Model of `clientManager.ValidateCompanyConfig`: nil check, then
emptiness checks on company ID, CUIT, certificate and private key, then
the environment switch.  The CUIT is only checked for emptiness. -/
def ValidateCompanyConfig (config : Option CompanyConfig) :
    Option CompanyConfigError :=
  match config with
  | none => some ⟨"", "config", "configuration cannot be nil"⟩
  | some c =>
    if c.companyID = "" then
      some ⟨c.companyID, "company_id", "company ID cannot be empty"⟩
    else if c.cuit = "" then
      some ⟨c.companyID, "cuit", "CUIT cannot be empty"⟩
    else if c.certificate = [] then
      some ⟨c.companyID, "certificate", "certificate cannot be empty"⟩
    else if c.privateKey = [] then
      some ⟨c.companyID, "private_key", "private key cannot be empty"⟩
    else if ¬c.environment = "testing" ∧ ¬c.environment = "production" then
      some ⟨c.companyID, "environment",
        "environment must be \x27testing\x27 or \x27production\x27"⟩
    else none

/-- Model of `clientManager.getCachedClient`: miss on absent key; a stale
entry (`time.Since(lastUsed) > idleTimeout`) is deleted — with NO call to
`Close` — and reported as a miss; a fresh entry has its last-used stamp
bumped to `now` and its client returned.  Components: returned client,
cache afterwards, clients closed during the call. -/
def getCachedClient (now idleTimeout : Int)
    (cache : List (String × CachedClient)) (companyID : String) :
    Option Nat × List (String × CachedClient) × List Nat :=
  match alookup cache companyID with
  | none => (none, cache, [])
  | some cached =>
    if idleTimeout < now - cached.lastUsed then
      (none, adelete cache companyID, [])
    else
      (some cached.clientId,
       aupdate cache companyID { cached with lastUsed := now }, [])

/-- The eviction scan of `cacheClient`: Go's loop over the map keeping the
first entry seen whose last-used time is strictly before the current
minimum; the accumulator models the `oldestCompanyID == ""` sentinel. -/
def findOldestAux (l : List (String × CachedClient))
    (acc : Option (String × Int)) : Option (String × Int) :=
  match l with
  | [] => acc
  | (id, cached) :: rest =>
    match acc with
    | none => findOldestAux rest (some (id, cached.lastUsed))
    | some (oid, ot) =>
      if cached.lastUsed < ot then findOldestAux rest (some (id, cached.lastUsed))
      else findOldestAux rest (some (oid, ot))

/-- Entry with the oldest last-used stamp in iteration order. -/
def findOldest (l : List (String × CachedClient)) : Option (String × Int) :=
  findOldestAux l none

/-- Model of `clientManager.cacheClient`: when the cache is full
(`len >= ClientCacheSize`) the scan picks a victim, its client is closed
and the entry deleted; then the new entry is stored with both stamps set
to `now`. -/
def cacheClient (now : Int) (cacheSize : Nat)
    (cache : List (String × CachedClient)) (companyID : String)
    (clientId : Nat) : List (String × CachedClient) × List Nat :=
  let entry : CachedClient := ⟨clientId, now, companyID, now⟩
  if cacheSize ≤ cache.length then
    match findOldest cache with
    | some (oid, _) =>
      match alookup cache oid with
      | some evicted =>
        (ainsert (adelete cache oid) companyID entry, [evicted.clientId])
      | none => (ainsert cache companyID entry, [])
    | none => (ainsert cache companyID entry, [])
  else (ainsert cache companyID entry, [])

/-- Model of `clientManager.InvalidateClient`: close and remove a present
entry, no-op otherwise. -/
def invalidateClient (cache : List (String × CachedClient))
    (companyID : String) : List (String × CachedClient) × List Nat :=
  match alookup cache companyID with
  | some cached => (adelete cache companyID, [cached.clientId])
  | none => (cache, [])

/-- Second phase of `CleanupInactiveClients`: for each collected company
ID still present, close its client and delete the entry. -/
def cleanupLoop (ids : List String)
    (cache : List (String × CachedClient)) :
    List (String × CachedClient) × List Nat :=
  match ids with
  | [] => (cache, [])
  | id :: rest =>
    match alookup cache id with
    | some cached =>
      let r := cleanupLoop rest (adelete cache id)
      (r.1, cached.clientId :: r.2)
    | none => cleanupLoop rest cache

/-- Model of `clientManager.CleanupInactiveClients`: collect the company
IDs whose last-used stamp is strictly before `now - maxIdleTime`, then
close and remove each. -/
def cleanupInactiveClients (now maxIdleTime : Int)
    (cache : List (String × CachedClient)) :
    List (String × CachedClient) × List Nat :=
  let cutoff := now - maxIdleTime
  let toRemove :=
    (cache.filter (fun p => decide (p.2.lastUsed < cutoff))).map Prod.fst
  cleanupLoop toRemove cache

/-- Error result of `GetClientForCompany`: a validation failure (wrapped
with "invalid company config") or a construction failure (wrapped with
"failed to create client"). -/
inductive GetClientError where
  | invalidConfig (e : CompanyConfigError)
  | createFailed (msg : String)
deriving DecidableEq, Repr

/-- Model of `clientManager.GetClientForCompany`: validate, probe the
cache, and on a miss construct a new client (`createResult` carries the
outcome of `createNewClient`) and store it.  The components are the
result, the cache afterwards, and the clients closed during the call.
The inner `none` arm is unreachable because validation already rejected a
nil config. -/
def GetClientForCompany (now idleTimeout : Int) (cacheSize : Nat)
    (cache : List (String × CachedClient)) (config : Option CompanyConfig)
    (createResult : Except String Nat) :
    Except GetClientError Nat × List (String × CachedClient) × List Nat :=
  match ValidateCompanyConfig config with
  | some e => (.error (.invalidConfig e), cache, [])
  | none =>
    match config with
    | none =>
      (.error (.invalidConfig ⟨"", "config", "configuration cannot be nil"⟩),
       cache, [])
    | some cfg =>
      match getCachedClient now idleTimeout cache cfg.companyID with
      | (some clientId, cache2, closedIds) => (.ok clientId, cache2, closedIds)
      | (none, cache2, closedIds) =>
        match createResult with
        | .error e => (.error (.createFailed e), cache2, closedIds)
        | .ok newClientId =>
          let r := cacheClient now cacheSize cache2 cfg.companyID newClientId
          (.ok newClientId, r.1, closedIds ++ r.2)

/-! ## Support lemmas for the manager cache operations -/

theorem adelete_of_not_mem {α : Type} (l : List (String × α)) (k : String)
    (h : k ∉ akeys l) : adelete l k = l := by
  induction l with
  | nil => rfl
  | cons p t ih =>
    have h1 : ¬p.1 = k := by
      intro he
      exact h (by rw [show akeys (p :: t) = p.1 :: akeys t from rfl, he]; simp)
    have h2 : k ∉ akeys t := by
      intro hm
      exact h (by rw [show akeys (p :: t) = p.1 :: akeys t from rfl]
                  exact List.mem_cons_of_mem _ hm)
    obtain ⟨k1, v⟩ := p
    rw [adelete, if_neg h1, ih h2]

theorem findOldestAux_spec (l : List (String × CachedClient)) :
    ∀ (acc : Option (String × Int)) (oid : String) (ot : Int),
    findOldestAux l acc = some (oid, ot) →
    ((∃ c, (oid, c) ∈ l ∧ c.lastUsed = ot) ∨ acc = some (oid, ot)) ∧
    (∀ p ∈ l, ot ≤ p.2.lastUsed) ∧
    (∀ a b, acc = some (a, b) → ot ≤ b) := by
  induction l with
  | nil =>
    intro acc oid ot h
    rw [findOldestAux] at h
    refine ⟨Or.inr h, by simp, ?_⟩
    intro a b hab
    rw [hab] at h
    simp at h
    omega
  | cons p t ih =>
    intro acc oid ot h
    obtain ⟨id, cached⟩ := p
    match hacc : acc with
    | none =>
      obtain ⟨hm, hb, hc⟩ := ih (some (id, cached.lastUsed)) oid ot h
      have hle : ot ≤ cached.lastUsed := hc id cached.lastUsed rfl
      refine ⟨?_, ?_, by simp⟩
      · rcases hm with ⟨c, hcm, hcu⟩ | heq
        · exact Or.inl ⟨c, List.mem_cons_of_mem _ hcm, hcu⟩
        · simp at heq
          exact Or.inl ⟨cached, by simp [heq.1], heq.2⟩
      · intro q hq
        rcases List.mem_cons.mp hq with hq1 | hq1
        · rw [hq1]; exact hle
        · exact hb q hq1
    | some (a, b) =>
      rw [findOldestAux] at h
      by_cases hlt : cached.lastUsed < b
      · rw [if_pos hlt] at h
        obtain ⟨hm, hb2, hc⟩ := ih (some (id, cached.lastUsed)) oid ot h
        have hle : ot ≤ cached.lastUsed := hc id cached.lastUsed rfl
        refine ⟨?_, ?_, ?_⟩
        · rcases hm with ⟨c, hcm, hcu⟩ | heq
          · exact Or.inl ⟨c, List.mem_cons_of_mem _ hcm, hcu⟩
          · simp at heq
            exact Or.inl ⟨cached, by simp [heq.1], heq.2⟩
        · intro q hq
          rcases List.mem_cons.mp hq with hq1 | hq1
          · rw [hq1]; exact hle
          · exact hb2 q hq1
        · intro x y hxy
          injection hxy with hxy
          injection hxy with h1 h2
          omega
      · rw [if_neg hlt] at h
        obtain ⟨hm, hb2, hc⟩ := ih (some (a, b)) oid ot h
        have hle : ot ≤ b := hc a b rfl
        refine ⟨?_, ?_, ?_⟩
        · rcases hm with ⟨c, hcm, hcu⟩ | heq
          · exact Or.inl ⟨c, List.mem_cons_of_mem _ hcm, hcu⟩
          · exact Or.inr heq
        · intro q hq
          rcases List.mem_cons.mp hq with hq1 | hq1
          · rw [hq1]; simp; omega
          · exact hb2 q hq1
        · intro x y hxy
          injection hxy with hxy
          injection hxy with h1 h2
          omega

theorem findOldest_spec (l : List (String × CachedClient)) (oid : String)
    (ot : Int) (h : findOldest l = some (oid, ot)) :
    (∃ c, (oid, c) ∈ l ∧ c.lastUsed = ot) ∧ ∀ p ∈ l, ot ≤ p.2.lastUsed := by
  obtain ⟨hm, hb, _⟩ := findOldestAux_spec l none oid ot h
  refine ⟨?_, hb⟩
  rcases hm with hm | hm
  · exact hm
  · simp at hm

theorem findOldestAux_some_ne (l : List (String × CachedClient)) :
    ∀ (a : String) (b : Int), findOldestAux l (some (a, b)) ≠ none := by
  induction l with
  | nil => intro a b; simp [findOldestAux]
  | cons p t ih =>
    intro a b
    obtain ⟨id, cached⟩ := p
    rw [findOldestAux]
    by_cases hlt : cached.lastUsed < b
    · rw [if_pos hlt]; exact ih id cached.lastUsed
    · rw [if_neg hlt]; exact ih a b

theorem findOldest_ne_none (l : List (String × CachedClient))
    (h : l ≠ []) : findOldest l ≠ none := by
  match l with
  | [] => exact absurd rfl h
  | (id, cached) :: t =>
    rw [findOldest, findOldestAux]
    exact findOldestAux_some_ne t id cached.lastUsed

theorem cleanupLoop_cons_notmem (ids : List String) (k : String)
    (c : CachedClient) (cache : List (String × CachedClient))
    (h : k ∉ ids) :
    cleanupLoop ids ((k, c) :: cache) =
      ((k, c) :: (cleanupLoop ids cache).1, (cleanupLoop ids cache).2) := by
  induction ids generalizing cache with
  | nil => rfl
  | cons id rest ih =>
    simp at h
    have hk : ¬k = id := h.1
    rw [cleanupLoop]
    rw [show alookup ((k, c) :: cache) id = alookup cache id by
      rw [alookup]; rw [if_neg hk]]
    cases hal : alookup cache id with
    | some cached =>
      rw [show adelete ((k, c) :: cache) id = (k, c) :: adelete cache id by
        rw [adelete]; rw [if_neg hk]]
      rw [ih (adelete cache id) h.2]
      rw [cleanupLoop, hal]
    | none =>
      rw [ih cache h.2]
      rw [cleanupLoop, hal]

theorem mem_map_fst_filter (cache : List (String × CachedClient))
    (pred : CachedClient → Bool) (k : String)
    (h : k ∈ (cache.filter (fun p => pred p.2)).map Prod.fst) :
    k ∈ akeys cache := by
  obtain ⟨q, hq, hqk⟩ := List.mem_map.mp h
  exact List.mem_map.mpr ⟨q, List.mem_of_mem_filter hq, hqk⟩

theorem cleanupLoop_filter (cache : List (String × CachedClient))
    (pred : CachedClient → Bool) (hN : (akeys cache).Nodup) :
    cleanupLoop ((cache.filter (fun p => pred p.2)).map Prod.fst) cache =
      (cache.filter (fun p => !pred p.2),
       (cache.filter (fun p => pred p.2)).map (fun p => p.2.clientId)) := by
  induction cache with
  | nil => rfl
  | cons p t ih =>
    obtain ⟨k, c⟩ := p
    simp [akeys] at hN
    have hknot : k ∉ akeys t := by
      simp [akeys]
      intro b hb
      exact hN.1 b hb
    have hN2 : (akeys t).Nodup := hN.2
    by_cases hp : pred c = true
    · rw [show List.filter (fun p => pred p.2) ((k, c) :: t) =
          (k, c) :: List.filter (fun p => pred p.2) t by
        simp [List.filter, hp]]
      rw [List.map]
      rw [cleanupLoop]
      rw [show alookup ((k, c) :: t) k = some c by rw [alookup]; simp]
      rw [show adelete ((k, c) :: t) k = t by
        rw [adelete]
        rw [if_pos rfl, adelete_of_not_mem t k hknot]]
      rw [ih hN2]
      simp [List.filter, hp]
    · have hp2 : pred c = false := by
        cases hpc : pred c
        · rfl
        · exact absurd hpc hp
      rw [show List.filter (fun p => pred p.2) ((k, c) :: t) =
          List.filter (fun p => pred p.2) t by
        simp [List.filter, hp2]]
      have hknotids : k ∉ (t.filter (fun p => pred p.2)).map Prod.fst := by
        intro hmem
        exact hknot (mem_map_fst_filter t pred k hmem)
      rw [cleanupLoop_cons_notmem _ k c t hknotids]
      rw [ih hN2]
      simp [List.filter, hp2]

/-! ## Claim theorems -/

/-- C1: for every service key, the ticket-cache lookup performed by
`GetToken` / `GetAccessTicket` never returns a cached ticket for which
`now + 5 minutes ≥ ticket.expirationTime`; a cached entry failing that
check is deleted from the cache and the call proceeds as a miss to a fresh
acquisition (`generateAccessToken`). -/
theorem claim_C1 (now : Int) (cache : List (String × AccessToken))
    (service : String) (exchange : Except String (String × String))
    (t : AccessToken) (hlook : alookup cache service = some t)
    (hexp : t.expirationTime ≤ now + 5 * nsPerMinute) :
    (getFromCache now cache service).1 = none ∧
    alookup (getFromCache now cache service).2 service = none ∧
    GetToken now cache service exchange =
      generateAccessToken now (adelete cache service) service exchange ∧
    (∀ (cache2 : List (String × AccessToken)) (t2 : AccessToken),
      (getFromCache now cache2 service).1 = some t2 →
      now + 5 * nsPerMinute < t2.expirationTime) := by
  have hnot : ¬(now + 5 * nsPerMinute < t.expirationTime) := by omega
  refine ⟨?_, ?_, ?_, ?_⟩
  · simp [getFromCache, hlook, hnot]
  · simp [getFromCache, hlook, hnot, alookup_adelete]
  · rw [GetToken]
    simp [getFromCache, hlook, hnot]
  · intro cache2 t2 h2
    unfold getFromCache at h2
    cases hl : alookup cache2 service with
    | none => simp [hl] at h2
    | some u =>
      simp [hl] at h2
      by_cases hc : now + 5 * nsPerMinute < u.expirationTime
      · simp [hc] at h2
        rw [← h2]
        exact hc
      · simp [hc] at h2

/-- Witness for C1 at a concrete stale entry: expiration 100ns, probed at
time 0, margin 5 minutes. -/
theorem claim_C1_witness :
    alookup [("wsfe", (⟨"tk", "sg", 0, 100⟩ : AccessToken))] "wsfe" =
      some ⟨"tk", "sg", 0, 100⟩ ∧
    (⟨"tk", "sg", 0, 100⟩ : AccessToken).expirationTime ≤
      0 + 5 * nsPerMinute ∧
    (getFromCache 0 [("wsfe", ⟨"tk", "sg", 0, 100⟩)] "wsfe").1 = none := by
  refine ⟨by decide, by decide, ?_⟩
  exact (claim_C1 0 [("wsfe", ⟨"tk", "sg", 0, 100⟩)] "wsfe"
    (Except.error "transport unavailable") ⟨"tk", "sg", 0, 100⟩ (by decide)
    (by decide)).1

/-- C4 counterexample: the claim asserts that `20-12345678-3` is accepted,
but `ValidateCUIT` rejects it — the check digit of `2012345678` under
weights `[5,4,3,2,7,6,5,4,3,2]` is 6 (sum 148, remainder 5, digit 11−5),
not 3. -/
theorem claim_C4_counterexample :
    ValidateCUIT "20-12345678-3" =
      some ⟨"cuit", "CUIT inválido - dígito verificador incorrecto"⟩ := by
  decide

/-- C4 (amended): `ValidateCUIT` succeeds exactly on strings matching
`^\d{2}-\d{8}-\d$` whose last digit is the mod-11 check digit under
weights `[5,4,3,2,7,6,5,4,3,2]` with the special remainder-1 prefixes; in
particular `20-12345678-6` is accepted while both `20-12345678-3` and
`20-12345678-9` are rejected. -/
theorem claim_C4 :
    (∀ s, ValidateCUIT s = none ↔ cuitSpecValid s = true) ∧
    ValidateCUIT "20-12345678-6" = none ∧
    ValidateCUIT "20-12345678-3" =
      some ⟨"cuit", "CUIT inválido - dígito verificador incorrecto"⟩ ∧
    ValidateCUIT "20-12345678-9" =
      some ⟨"cuit", "CUIT inválido - dígito verificador incorrecto"⟩ := by
  exact ⟨validateCUIT_matches_spec, by decide, by decide, by decide⟩

/-- C5 counterexample: a config whose CUIT `20-12345678-9` is malformed
(wrong check digit, as `ValidateCUIT` itself confirms) passes
`ValidateCompanyConfig`, because the manager only checks the CUIT for
emptiness. -/
theorem claim_C5_counterexample :
    ValidateCompanyConfig
      (some ⟨"c1", "20-12345678-9", [1], [2], "testing"⟩) = none ∧
    (ValidateCUIT "20-12345678-9").isSome = true := by
  exact ⟨by decide, by decide⟩

/-- C5 (amended): `ValidateCompanyConfig` fails with a field-identifying
error exactly when the config is nil, the company ID is empty, the CUIT is
empty, the certificate bytes are empty, the private-key bytes are empty,
or the environment is not `testing`/`production`; no format or check-digit
validation of the CUIT is performed. -/
theorem claim_C5 (config : Option CompanyConfig) :
    (ValidateCompanyConfig config = none ↔
      (∃ c, config = some c ∧ ¬c.companyID = "" ∧ ¬c.cuit = "" ∧
        ¬c.certificate = [] ∧ ¬c.privateKey = [] ∧
        (c.environment = "testing" ∨ c.environment = "production"))) ∧
    (config = none →
      ValidateCompanyConfig config =
        some ⟨"", "config", "configuration cannot be nil"⟩) ∧
    (∀ c, config = some c → c.companyID = "" →
      (ValidateCompanyConfig config).map (fun e => e.field) =
        some "company_id") ∧
    (∀ c, config = some c → ¬c.companyID = "" → c.cuit = "" →
      (ValidateCompanyConfig config).map (fun e => e.field) = some "cuit") ∧
    (∀ c, config = some c → ¬c.companyID = "" → ¬c.cuit = "" →
      ¬c.certificate = [] → ¬c.privateKey = [] →
      ¬c.environment = "testing" → ¬c.environment = "production" →
      (ValidateCompanyConfig config).map (fun e => e.field) =
        some "environment") := by
  cases config with
  | none =>
    refine ⟨?_, fun _ => rfl, by simp, by simp, by simp⟩
    simp [ValidateCompanyConfig]
  | some c =>
    refine ⟨?_, by simp, ?_, ?_, ?_⟩
    · constructor
      · intro h
        simp only [ValidateCompanyConfig] at h
        split_ifs at h with h1 h2 h3 h4 h5
        all_goals simp at h
        push_neg at h5
        refine ⟨c, rfl, h1, h2, h3, h4, ?_⟩
        by_cases he : c.environment = "testing"
        · exact Or.inl he
        · exact Or.inr (h5 he)
      · rintro ⟨c2, hc2, hcid, hcuit, hcert, hkey, henv⟩
        have : c2 = c := by injection hc2 with h; exact h.symm
        subst this
        simp only [ValidateCompanyConfig]
        rw [if_neg hcid, if_neg hcuit, if_neg hcert, if_neg hkey,
          if_neg (by tauto)]
    · intro c2 hc2 hcid
      have : c2 = c := by injection hc2 with h; exact h.symm
      subst this
      simp only [ValidateCompanyConfig]
      rw [if_pos hcid]
      rfl
    · intro c2 hc2 hcid hcuit
      have : c2 = c := by injection hc2 with h; exact h.symm
      subst this
      simp only [ValidateCompanyConfig]
      rw [if_neg hcid, if_pos hcuit]
      rfl
    · intro c2 hc2 hcid hcuit hcert hkey ht hp
      have : c2 = c := by injection hc2 with h; exact h.symm
      subst this
      simp only [ValidateCompanyConfig]
      rw [if_neg hcid, if_neg hcuit, if_neg hcert, if_neg hkey,
        if_pos ⟨ht, hp⟩]
      rfl

/-- Witness for C5 at concrete inputs: a fully valid config on the success
side of the iff, and an invalid-environment config naming the
`environment` field. -/
theorem claim_C5_witness :
    ValidateCompanyConfig
      (some ⟨"c1", "20-12345678-6", [1], [2], "testing"⟩) = none ∧
    (ValidateCompanyConfig
      (some ⟨"c1", "20-12345678-6", [1], [2], "staging"⟩)).map
        (fun e => e.field) = some "environment" := by
  constructor
  · exact (claim_C5 (some ⟨"c1", "20-12345678-6", [1], [2], "testing"⟩)).1.mpr
      ⟨⟨"c1", "20-12345678-6", [1], [2], "testing"⟩, rfl, by decide, by decide,
       by decide, by decide, Or.inl rfl⟩
  · exact (claim_C5 (some ⟨"c1", "20-12345678-6", [1], [2],
      "staging"⟩)).2.2.2.2 ⟨"c1", "20-12345678-6", [1], [2], "staging"⟩ rfl
      (by decide) (by decide) (by decide) (by decide) (by decide) (by decide)

/-- C6: the claim describes `createCMS` as producing the base64 of a DER
PKCS#7 SignedData carrying the certificate and an RSA-SHA1 SignerInfo, and
the specification states that intent; the code instead discards the
computed signature and base64-encodes the login XML wrapped in a textual
`cm:loginTicketRequest` element.  The theorem shows the output is
independent of the signature bytes, equals the base64 of the textual
wrapper, and that the encoded payload starts with byte 60 (`<`) rather
than the DER SEQUENCE tag 48 (0x30) every DER SignedData starts with. -/
theorem claim_C6 :
    (∀ (data : String) (sig1 sig2 : List Nat),
      createCMS data (Except.ok sig1) = createCMS data (Except.ok sig2)) ∧
    createCMS "<x/>" (Except.ok [1, 2, 3]) =
      Except.ok (String.mk (base64Encode (strBytes (wrapCMS "<x/>")))) ∧
    (strBytes (wrapCMS "<x/>")).head? = some 60 ∧
    ¬(strBytes (wrapCMS "<x/>")).head? = some 48 := by
  refine ⟨fun data s1 s2 => rfl, rfl, ?_, ?_⟩
  · decide
  · decide

/-- C7 counterexample: on a concrete CLOSED client, the WSFE and WSFEX
handle getters and `GetCompanyInfo` return their ordinary results — these
operations have no error path and never consult the closed flag, so they
cannot fail with a ClientClosed error as the claim asserts. -/
theorem claim_C7_counterexample :
    arcaWSFE ⟨"A", "20-12345678-6", "testing", 5, 6, [], true⟩ = 5 ∧
    arcaWSFEX ⟨"A", "20-12345678-6", "testing", 5, 6, [], true⟩ = 6 ∧
    arcaGetCompanyInfo ⟨"A", "20-12345678-6", "testing", 5, 6, [], true⟩ =
      ⟨"A", "20-12345678-6", "testing"⟩ ∧
    arcaWSFE ⟨"A", "20-12345678-6", "testing", 5, 6, [], true⟩ =
      arcaWSFE ⟨"A", "20-12345678-6", "testing", 5, 6, [], false⟩ := by
  exact ⟨rfl, rfl, rfl, rfl⟩

/-- C7 (amended): once a tenant client is CLOSED, `IsHealthy` fails with
the client-is-closed error; the WSFE/WSFEX handle getters and
`GetCompanyInfo` perform no closed-state check and return their normal
results. -/
theorem claim_C7 (c : ArcaClient) (h : c.closed = true) (now : Int)
    (exchange : Except String (String × String)) :
    arcaIsHealthy c now exchange = some "client is closed" ∧
    arcaWSFE c = c.wsfeServiceId ∧
    arcaWSFEX c = c.wsfexServiceId ∧
    arcaGetCompanyInfo c = ⟨c.companyID, c.cuit, c.environment⟩ := by
  refine ⟨?_, rfl, rfl, rfl⟩
  simp [arcaIsHealthy, h]

/-- Witness for C7 on a concrete closed client. -/
theorem claim_C7_witness :
    (⟨"A", "20-12345678-6", "testing", 5, 6, [], true⟩ :
      ArcaClient).closed = true ∧
    arcaIsHealthy ⟨"A", "20-12345678-6", "testing", 5, 6, [], true⟩ 0
      (Except.error "transport unavailable") = some "client is closed" := by
  exact ⟨rfl, (claim_C7 ⟨"A", "20-12345678-6", "testing", 5, 6, [], true⟩
    rfl 0 (Except.error "transport unavailable")).1⟩

/-- C8: `Close` is idempotent — on an OPEN client the first call returns
nil, transitions to CLOSED and clears the ticket cache, and a second call
returns nil and leaves the client unchanged. -/
theorem claim_C8 (c : ArcaClient) (h : c.closed = false) :
    (arcaClose c).1 = none ∧
    (arcaClose c).2.closed = true ∧
    (arcaClose c).2.authCache = [] ∧
    (arcaClose (arcaClose c).2).1 = none ∧
    (arcaClose (arcaClose c).2).2 = (arcaClose c).2 := by
  simp [arcaClose, h]

/-- Witness for C8 on a concrete open client with a non-empty ticket
cache. -/
theorem claim_C8_witness :
    (⟨"A", "20-12345678-6", "testing", 5, 6,
      [("wsfe", ⟨"tk", "sg", 0, 100⟩)], false⟩ : ArcaClient).closed =
      false ∧
    (arcaClose ⟨"A", "20-12345678-6", "testing", 5, 6,
      [("wsfe", ⟨"tk", "sg", 0, 100⟩)], false⟩).1 = none ∧
    (arcaClose (arcaClose ⟨"A", "20-12345678-6", "testing", 5, 6,
      [("wsfe", ⟨"tk", "sg", 0, 100⟩)], false⟩).2).1 = none := by
  have h := claim_C8 ⟨"A", "20-12345678-6", "testing", 5, 6,
    [("wsfe", ⟨"tk", "sg", 0, 100⟩)], false⟩ rfl
  exact ⟨rfl, h.1, h.2.2.2.1⟩

/-- C9: for any environment value other than the recognised tags
`testing` and `production`, the base-URL switch falls back silently to the
TEST base URL, and all derived service URLs are built from that
fallback. -/
theorem claim_C9 (environment : String) (h1 : ¬environment = "testing")
    (h2 : ¬environment = "production") :
    getBaseURL environment = "https://wswhomo.afip.gov.ar" ∧
    getWSAAURL environment =
      "https://wswhomo.afip.gov.ar/ws/services/LoginCms" ∧
    getWSFEURL environment =
      "https://wswhomo.afip.gov.ar/wsfev1/service.asmx" ∧
    getWSFEXURL environment =
      "https://wswhomo.afip.gov.ar/wsfexv1/service.asmx" := by
  have hb : getBaseURL environment = "https://wswhomo.afip.gov.ar" := by
    simp [getBaseURL, h1, h2]
  refine ⟨hb, ?_, ?_, ?_⟩
  · rw [getWSAAURL, hb]
    decide
  · rw [getWSFEURL, hb]
    decide
  · rw [getWSFEXURL, hb]
    decide

/-- Witness for C9 at the unrecognised environment `staging`. -/
theorem claim_C9_witness :
    ¬("staging" : String) = "testing" ∧
    ¬("staging" : String) = "production" ∧
    getBaseURL "staging" = "https://wswhomo.afip.gov.ar" ∧
    getWSAAURL "staging" =
      "https://wswhomo.afip.gov.ar/ws/services/LoginCms" := by
  have h := claim_C9 "staging" (by decide) (by decide)
  exact ⟨by decide, by decide, h.1, h.2.1⟩

/-- C10: the in-tree client implementation of `Close` returns nil from
both of its branches (already-closed and closing), so for every client
state `Close` returns no error and the manager's warn-and-swallow branch
for `Close` failures during eviction can never be taken with this client
implementation. -/
theorem claim_C10 (c : ArcaClient) :
    (arcaClose c).1 = none ∧ ((arcaClose c).1.isSome = true → False) := by
  refine ⟨?_, ?_⟩
  · unfold arcaClose
    split
    · rfl
    · rfl
  · intro h
    rw [show (arcaClose c).1 = none by
      unfold arcaClose
      split
      · rfl
      · rfl] at h
    simp at h

theorem alookup_eq_of_mem_nodup {α : Type} (l : List (String × α))
    (k : String) (v : α) (hN : (akeys l).Nodup) (h : (k, v) ∈ l) :
    alookup l k = some v := by
  induction l with
  | nil => simp at h
  | cons p t ih =>
    have hN2 : (akeys t).Nodup := by
      rw [show akeys (p :: t) = p.1 :: akeys t from rfl] at hN
      exact hN.of_cons
    rcases List.mem_cons.mp h with h1 | h1
    · rw [alookup, ← h1]
      simp
    · have hkt : k ∈ akeys t := List.mem_map.mpr ⟨(k, v), h1, rfl⟩
      have hp1 : ¬p.1 = k := by
        intro he
        rw [show akeys (p :: t) = p.1 :: akeys t from rfl] at hN
        exact (List.nodup_cons.mp hN).1 (he ▸ hkt)
      rw [alookup]
      rw [if_neg hp1]
      exact ih hN2 h1

/-- C3 counterexample: two entries tied on last-used time 100; the entry
created earlier (`A`, created-at 10) should be the victim under the
claimed created-at tie-break, but with the map iteration order presenting
`B` first the scan keeps `B` (strict `Before` comparison) and evicts it —
`B` was created at 50, later than `A`. -/
theorem claim_C3_counterexample :
    cacheClient 200 2 [("B", ⟨2, 100, "B", 50⟩), ("A", ⟨1, 100, "A", 10⟩)]
      "C" 3 =
      ([("A", ⟨1, 100, "A", 10⟩), ("C", ⟨3, 200, "C", 200⟩)], [2]) ∧
    (⟨2, 100, "B", 50⟩ : CachedClient).lastUsed =
      (⟨1, 100, "A", 10⟩ : CachedClient).lastUsed ∧
    (⟨1, 100, "A", 10⟩ : CachedClient).createdAt <
      (⟨2, 100, "B", 50⟩ : CachedClient).createdAt := by
  exact ⟨by decide, by decide, by decide⟩

/-- C3 (amended): the tenant-client cache never exceeds the configured
bound and holds at most one entry per tenant identifier; on a full insert
exactly one entry whose last-used time is minimal is chosen — ties broken
by the unspecified map iteration order (the first minimal entry
encountered), not by created-at — its client is Closed, it is removed,
and the new entry is inserted with last-used = created-at = now. -/
theorem claim_C3 (now : Int) (cacheSize : Nat)
    (cache : List (String × CachedClient)) (companyID : String)
    (clientId : Nat) (hN : (akeys cache).Nodup)
    (hlen : cache.length ≤ cacheSize) (hpos : 1 ≤ cacheSize) :
    (cacheClient now cacheSize cache companyID clientId).1.length ≤
      cacheSize ∧
    (akeys (cacheClient now cacheSize cache companyID clientId).1).Nodup ∧
    alookup (cacheClient now cacheSize cache companyID clientId).1
      companyID = some ⟨clientId, now, companyID, now⟩ ∧
    (cache.length < cacheSize →
      (cacheClient now cacheSize cache companyID clientId).2 = []) ∧
    (cacheSize ≤ cache.length →
      ∃ oid evicted, alookup cache oid = some evicted ∧
        (cacheClient now cacheSize cache companyID clientId).2 =
          [evicted.clientId] ∧
        ∀ p ∈ cache, evicted.lastUsed ≤ p.2.lastUsed) := by
  by_cases hfull : cacheSize ≤ cache.length
  · have hne : cache ≠ [] := by
      intro he
      rw [he] at hfull
      simp at hfull
      omega
    cases hfo : findOldest cache with
    | none => exact absurd hfo (findOldest_ne_none cache hne)
    | some pair =>
      obtain ⟨oid, ot⟩ := pair
      obtain ⟨⟨c0, hc0mem, hc0lu⟩, hmin⟩ := findOldest_spec cache oid ot hfo
      have hlookoid : alookup cache oid = some c0 :=
        alookup_eq_of_mem_nodup cache oid c0 hN hc0mem
      have hred : cacheClient now cacheSize cache companyID clientId =
          (ainsert (adelete cache oid) companyID
            ⟨clientId, now, companyID, now⟩, [c0.clientId]) := by
        simp [cacheClient, hfo, hlookoid, hfull]
      rw [hred]
      have hdel : (adelete cache oid).length < cache.length :=
        adelete_length_lt cache oid (by rw [hlookoid]; simp)
      have hdel2 := adelete_length_le (adelete cache oid) companyID
      refine ⟨?_, ?_, alookup_ainsert _ _ _, ?_, ?_⟩
      · rw [ainsert_length]
        omega
      · exact akeys_nodup_ainsert _ _ _ (akeys_nodup_adelete _ _ hN)
      · intro hlt
        omega
      · intro _
        exact ⟨oid, c0, hlookoid, rfl, fun p hp => hc0lu ▸ hmin p hp⟩
  · have hred : cacheClient now cacheSize cache companyID clientId =
        (ainsert cache companyID ⟨clientId, now, companyID, now⟩, []) := by
      unfold cacheClient
      rw [if_neg hfull]
    rw [hred]
    have hdel := adelete_length_le cache companyID
    refine ⟨?_, akeys_nodup_ainsert _ _ _ hN, alookup_ainsert _ _ _, ?_, ?_⟩
    · rw [ainsert_length]
      omega
    · intro _
      rfl
    · intro hge
      exact absurd hge hfull

/-- Witness for C3: a full one-slot cache holding client 1; inserting
client 2 for another tenant evicts and closes client 1 and the bound
holds. -/
theorem claim_C3_witness :
    (akeys [("A", (⟨1, 5, "A", 5⟩ : CachedClient))]).Nodup ∧
    (cacheClient 10 1 [("A", ⟨1, 5, "A", 5⟩)] "B" 2).1.length ≤ 1 ∧
    alookup (cacheClient 10 1 [("A", ⟨1, 5, "A", 5⟩)] "B" 2).1 "B" =
      some ⟨2, 10, "B", 10⟩ ∧
    (cacheClient 10 1 [("A", ⟨1, 5, "A", 5⟩)] "B" 2).2 = [1] := by
  have h := claim_C3 10 1 [("A", ⟨1, 5, "A", 5⟩)] "B" 2 (by decide)
    (by decide) (by decide)
  exact ⟨by decide, h.1, h.2.2.1, by decide⟩

/-- C2 counterexample: tenant `A` holds client 1, last used at time 0;
at time 1000 with idle timeout 10 the entry is stale, so
`GetClientForCompany` removes it via the lazy-staleness path — which
never calls `Close` — and then constructs and caches replacement client 2.
The closed-clients component of the call is empty although client 1 was
removed and replaced. -/
theorem claim_C2_counterexample :
    alookup [("A", (⟨1, 0, "A", 0⟩ : CachedClient))] "A" =
      some ⟨1, 0, "A", 0⟩ ∧
    GetClientForCompany 1000 10 100 [("A", ⟨1, 0, "A", 0⟩)]
      (some ⟨"A", "20-12345678-6", [1], [1], "testing"⟩) (Except.ok 2) =
      (Except.ok 2, [("A", ⟨2, 1000, "A", 1000⟩)], []) := by
  exact ⟨by decide, by rfl⟩

/-- C2 (amended): tenant clients removed by size-triggered LRU eviction,
explicit invalidation, or idle cleanup have `Close` invoked exactly once
at removal; but a stale entry discovered during a `GetClientForCompany`
lookup is removed from the cache WITHOUT `Close` being invoked, and the
call proceeds as a miss that may construct a replacement. -/
theorem claim_C2 :
    (∀ (cache : List (String × CachedClient)) (companyID : String)
        (cached : CachedClient), alookup cache companyID = some cached →
      invalidateClient cache companyID =
        (adelete cache companyID, [cached.clientId])) ∧
    (∀ (now maxIdle : Int) (cache : List (String × CachedClient)),
      (akeys cache).Nodup →
      cleanupInactiveClients now maxIdle cache =
        (cache.filter (fun p => !decide (p.2.lastUsed < now - maxIdle)),
         (cache.filter (fun p => decide (p.2.lastUsed < now - maxIdle))).map
           (fun p => p.2.clientId))) ∧
    (∀ (now : Int) (cacheSize : Nat)
        (cache : List (String × CachedClient)) (companyID : String)
        (clientId : Nat) (oid : String) (ot : Int) (evicted : CachedClient),
      cacheSize ≤ cache.length → findOldest cache = some (oid, ot) →
      alookup cache oid = some evicted →
      (cacheClient now cacheSize cache companyID clientId).2 =
        [evicted.clientId]) ∧
    (∀ (now idleTimeout : Int) (cache : List (String × CachedClient))
        (companyID : String) (cached : CachedClient),
      alookup cache companyID = some cached →
      idleTimeout < now - cached.lastUsed →
      getCachedClient now idleTimeout cache companyID =
        (none, adelete cache companyID, [])) := by
  refine ⟨?_, ?_, ?_, ?_⟩
  · intro cache companyID cached h
    unfold invalidateClient
    rw [h]
  · intro now maxIdle cache hN
    unfold cleanupInactiveClients
    exact cleanupLoop_filter cache
      (fun c => decide (c.lastUsed < now - maxIdle)) hN
  · intro now cacheSize cache companyID clientId oid ot evicted hfull hfo
      hlook
    simp [cacheClient, hfo, hlook, hfull]
  · intro now idleTimeout cache companyID cached h hstale
    simp [getCachedClient, h, hstale]

/-- Witness for C2: invalidation closes exactly client 1; cleanup closes
exactly the stale client 1 and keeps the fresh client 2; a full-cache
insert closes exactly the evicted client 1; a stale lookup removes the
entry closing nothing. -/
theorem claim_C2_witness :
    invalidateClient [("A", ⟨1, 0, "A", 0⟩)] "A" = ([], [1]) ∧
    cleanupInactiveClients 100 10 [("A", ⟨1, 0, "A", 0⟩),
      ("B", ⟨2, 95, "B", 95⟩)] =
      ([("B", ⟨2, 95, "B", 95⟩)], [1]) ∧
    (cacheClient 10 1 [("A", ⟨1, 5, "A", 5⟩)] "B" 7).2 = [1] ∧
    getCachedClient 1000 10 [("A", ⟨1, 0, "A", 0⟩)] "A" = (none, [], []) := by
  refine ⟨?_, ?_, ?_, ?_⟩
  · rw [claim_C2.1 [("A", ⟨1, 0, "A", 0⟩)] "A" ⟨1, 0, "A", 0⟩ (by decide)]
    decide
  · rw [claim_C2.2.1 100 10 [("A", ⟨1, 0, "A", 0⟩), ("B", ⟨2, 95, "B", 95⟩)]
      (by decide)]
    decide
  · exact claim_C2.2.2.1 10 1 [("A", ⟨1, 5, "A", 5⟩)] "B" 7 "A" 5
      ⟨1, 5, "A", 5⟩ (by decide) (by decide) (by decide)
  · rw [claim_C2.2.2.2 1000 10 [("A", ⟨1, 0, "A", 0⟩)] "A" ⟨1, 0, "A", 0⟩
      (by decide) (by decide)]
    decide

/-- Witness for C4: the corrected test vector `20-12345678-6` is accepted,
via the specification-side characterisation. -/
theorem claim_C4_witness : ValidateCUIT "20-12345678-6" = none :=
  (claim_C4.1 "20-12345678-6").mpr (by decide)

/-- Witness for C6: the CMS output at a concrete login XML is the same for
two different signature values. -/
theorem claim_C6_witness :
    createCMS "<y/>" (Except.ok [1]) = createCMS "<y/>" (Except.ok [2]) :=
  claim_C6.1 "<y/>" [1] [2]

/-- Witness for C10 on concrete open and closed clients. -/
theorem claim_C10_witness :
    (arcaClose ⟨"A", "20-12345678-6", "testing", 1, 2, [], false⟩).1 =
      none ∧
    (arcaClose ⟨"A", "20-12345678-6", "testing", 1, 2, [], true⟩).1 =
      none :=
  ⟨(claim_C10 ⟨"A", "20-12345678-6", "testing", 1, 2, [], false⟩).1,
   (claim_C10 ⟨"A", "20-12345678-6", "testing", 1, 2, [], true⟩).1⟩

end Arca
